import Mathlib

/-!
Shallow embedding of the verification pipeline of `ApprovalTests.cpp`
(`src/ApprovalTests/Approvals.h`).  The `Approvals` entry points in that
header are translated directly; the collaborators that the header only
includes (`FileApprover`, the disposers, the namers, the scrubbers, the
reporter chain) are modelled from the specification, each such definition
carrying a doc comment that says so.
-/

namespace ApprovalTests

/-- Per-call configuration value (`core/Options.h`): a scrubber
(text → text), a reporter identifier and a file extension. -/
structure Options where
  scrubber : String → String
  reporterId : Nat
  fileExtension : String

/-- Embedding of `Options::scrub`: apply the configured scrubber to a string. -/
def Options.scrub (o : Options) (s : String) : String := o.scrubber s

/-- An `ApprovalWriter`: an in-memory artifact (its contents) plus the
declared file extension under which it is persisted. -/
structure ApprovalWriter where
  contents : String
  ext : String

/-- Embedding of `StringWriter(contents, extension)`: wraps a string as a writer. -/
def StringWriter (contents ext : String) : ApprovalWriter := ⟨contents, ext⟩

/-- The two files a verification touches: the approved baseline and the
received output.  `none` means the file is absent. -/
structure FileSystem where
  approved : Option String
  received : Option String
deriving DecidableEq, Repr

/-- Outcome of a verification: pass, or fail (mismatch reported). -/
inductive VerifyResult where
  | pass
  | fail
deriving DecidableEq, Repr

/-- Modelled from the spec: `FileApprover::verify` (the engine), absent
from `src/`.  Per §4.1 it persists the writer's artifact to the received
path, reads the approved path treating absence as an empty baseline,
compares bytes exactly, deletes the received file on a match, and reports
a mismatch otherwise. -/
def FileApprover.verify (writer : ApprovalWriter) (fs : FileSystem) :
    VerifyResult × FileSystem :=
  let fs1 : FileSystem := { fs with received := some writer.contents }
  let baseline := fs1.approved.getD ""
  if baseline = writer.contents then
    (VerifyResult.pass, { fs1 with received := none })
  else
    (VerifyResult.fail, fs1)

/-- Embedding of `Approvals::verify(const std::string&, const Options&)`
(`Approvals.h` lines 49–55): builds a `StringWriter` from
`options.scrub(contents)` and the configured extension, then hands it to
`FileApprover::verify`. -/
def Approvals.verifyString (contents : String) (options : Options)
    (fs : FileSystem) : VerifyResult × FileSystem :=
  let writer := StringWriter (options.scrub contents)
      options.fileExtension
  FileApprover.verify writer fs

/-- Embedding of `Approvals::verify(const ApprovalWriter&, const Options&)`
(`Approvals.h` lines 57–62): passes the writer straight to
`FileApprover::verify`; the options' scrubber is never consulted. -/
def Approvals.verifyWriter (writer : ApprovalWriter) (_options : Options)
    (fs : FileSystem) : VerifyResult × FileSystem :=
  FileApprover.verify writer fs

/-- What running the function under test can do: return normally, throw
an exception derived from `std::exception` (carrying its `what()`
message), or throw something not derived from `std::exception`. -/
inductive FnOutcome where
  | ok
  | stdExc (message : String)
  | otherExc
deriving DecidableEq, Repr

/-- Embedding of `Approvals::verifyExceptionMessage` (`Approvals.h` lines 82–96):
`message` starts as the placeholder, the function is run, a caught
`std::exception` overwrites `message` with `e.what()`, and `message` is
then verified through `verifyString`.  An exception not derived from
`std::exception` escapes the `catch` clause and propagates
(`Except.error`). -/
def Approvals.verifyExceptionMessage (outcome : FnOutcome)
    (options : Options) (fs : FileSystem) :
    Except Unit (VerifyResult × FileSystem) :=
  match outcome with
  | FnOutcome.ok =>
      Except.ok (Approvals.verifyString "*** no exception thrown ***" options fs)
  | FnOutcome.stdExc message =>
      Except.ok (Approvals.verifyString message options fs)
  | FnOutcome.otherExc => Except.error ()

/-- Modelled from the spec: a Disposer (`SubdirectoryDisposer`,
`DefaultReporterDisposer`, `FrontLoadedReporterDisposer`,
`DefaultNamerDisposer`, absent from `src/`) captures the current
process-wide default value on construction. -/
structure Disposer (V : Type) where
  previous : V

/-- Modelled from the spec: constructing a Disposer captures the current
registry value and installs the new value. -/
def Disposer.create (newValue : V) (registry : V) : Disposer V × V :=
  (⟨registry⟩, newValue)

/-- Modelled from the spec: on scope exit the Disposer restores the
captured previous value unconditionally, ignoring whatever the registry
holds at that point. -/
def Disposer.dispose (d : Disposer V) (_registry : V) : V := d.previous

/-- Modelled from the spec: a dynamic scope guarded by a Disposer.  The
body observes the installed value and returns the registry it leaves
behind, the list of values the registry held right after each restore
performed inside it, and whether it exited via an exception.  The
Disposer's restore runs unconditionally on exit — also when the body
threw — and is appended to the restore trace. -/
def runScope (newValue : V) (body : V → V × List V × Bool)
    (registry : V) : V × List V × Bool :=
  let (d, installed) := Disposer.create newValue registry
  let (afterBody, restores, threw) := body installed
  let restored := Disposer.dispose d afterBody
  (restored, restores ++ [restored], threw)

/-- A reporter: an identifier plus whether `isWorkingInThisEnvironment`
returns true. -/
structure Reporter where
  id : Nat
  works : Bool
deriving DecidableEq, Repr

/-- Modelled from the spec: first-match dispatch over the effective
reporter chain (front-loaded reporters in registration order, then the
default reporter).  Returns the identifiers of the reporters whose
`report` is invoked: the first one claiming to work, and nothing after
it. -/
def reportFirstMatch : List Reporter → List Nat
  | [] => []
  | r :: rest => if r.works then [r.id] else reportFirstMatch rest

/-- A test identity: suite, case and optional qualifier, as the ambient
test framework context supplies it. -/
structure TestIdentity where
  suite : String
  caseName : String
  qualifier : String
deriving DecidableEq, Repr

/-- Modelled from the spec: the identity string a namer derives from the
ambient test context. -/
def identityName (i : TestIdentity) : String :=
  i.suite ++ "." ++ i.caseName ++
    (if i.qualifier = "" then "" else "." ++ i.qualifier)

/-- Modelled from the spec: the approved-file path
`{directory}/{testIdentity}.approved.{ext}` (§6). -/
def namerApprovedFile (i : TestIdentity) (dir ext : String) : String :=
  dir ++ "/" ++ identityName i ++ ".approved." ++ ext

/-- Modelled from the spec: the received-file path
`{directory}/{testIdentity}.received.{ext}` (§6). -/
def namerReceivedFile (i : TestIdentity) (dir ext : String) : String :=
  dir ++ "/" ++ identityName i ++ ".received." ++ ext

/-- Modelled from the spec: the pair of paths the namer produces for a
test identity under a directory/extension policy. -/
def namerPaths (i : TestIdentity) (dir ext : String) : String × String :=
  (namerApprovedFile i dir ext, namerReceivedFile i dir ext)

/-- Modelled from the spec: worker for the placeholder-substitution
scrubbers.  The boolean records whether the scanner is inside a run of
matching characters: the placeholder is emitted once at the start of
each run, further characters of the run are dropped, and a
non-matching character ends the run and is kept. -/
def scrubRunsGo (p : Char → Bool) (w : List Char) :
    Bool → List Char → List Char
  | _, [] => []
  | inRun, c :: cs =>
      if p c then
        (if inRun then [] else w) ++ scrubRunsGo p w true cs
      else c :: scrubRunsGo p w false cs

/-- Modelled from the spec: the built-in placeholder-substitution
scrubbers (`scrubbers/Scrubbers.h`, absent from `src/`) replace each
maximal run of characters matching a class `p` (digits of a numeric
sequence, GUID characters, …) by a fixed stable placeholder `w`. -/
def scrubRuns (p : Char → Bool) (w : List Char) (l : List Char) :
    List Char :=
  scrubRunsGo p w false l

/-- Modelled from the spec: the numeric-sequence scrubber, replacing
each maximal digit run by the placeholder `<NUM>`. -/
def scrubAllNumbers (s : String) : String :=
  ⟨scrubRuns Char.isDigit "<NUM>".data s.data⟩

/-- Embedding of `Approvals::verifyAll` over an indexed container (`Approvals.h`
lines 135–149): the captured counter `i` starts at 0 and the lambda
streams `"[" << i++ << "] = " << toString(e)` for each element; the
iterator overload then appends `'\n'` after each element
(line 119). -/
def verifyAllIndexedPieces (toStr : α → String) :
    Nat → List α → List String
  | _, [] => []
  | i, e :: es =>
      ("[" ++ toString i ++ "] = " ++ toStr e) ::
        verifyAllIndexedPieces toStr (i + 1) es

/-- The string the iterator overload of `Approvals::verifyAll`
(`Approvals.h` lines 103–122) accumulates in its stringstream: the
header followed by `"\n\n\n"` when the header is non-empty, then each
converted element followed by `'\n'`. -/
def verifyAllStream (header : String) (pieces : List String) : String :=
  (if header = "" then "" else header ++ "\n\n\n") ++
    String.join (pieces.map (fun piece => piece ++ "\n"))

/-- Embedding of `Approvals::verifyAll(header, list, options)` (`Approvals.h` lines
135–149): the full string handed to `verify`, built from the indexed
pieces. -/
def Approvals.verifyAllString (header : String) (xs : List α)
    (toStr : α → String) : String :=
  verifyAllStream header (verifyAllIndexedPieces toStr 0 xs)

/-- Embedding of `Approvals::verifyAll(list, options)` (`Approvals.h` lines
151–156): delegates with an empty header. -/
def Approvals.verifyAllNoHeaderString (xs : List α)
    (toStr : α → String) : String :=
  Approvals.verifyAllString "" xs toStr

/-- The claim C10 describes the verified string this way: the header
followed by exactly three newlines when the header is non-empty (no
header block when it is empty), then each element rendered as
`"[i] = "` followed by its `toString`, `i` counting from 0 in list
order, each element followed by exactly one newline. -/
def verifyAllClaimString (header : String) (xs : List α)
    (toStr : α → String) : String :=
  (if header = "" then "" else header ++ "\n\n\n") ++
    String.join (xs.enum.map
      (fun q => "[" ++ toString q.1 ++ "] = " ++ toStr q.2 ++ "\n"))

lemma verifyAllIndexedPieces_enumFrom (toStr : α → String) (i : Nat)
    (xs : List α) :
    verifyAllIndexedPieces toStr i xs =
      (xs.enumFrom i).map
        (fun q => "[" ++ toString q.1 ++ "] = " ++ toStr q.2) := by
  induction xs generalizing i with
  | nil => rfl
  | cons e es ih => simp [verifyAllIndexedPieces, List.enumFrom, ih]

lemma scrubRunsGo_no_match (p : Char → Bool) (w : List Char)
    (l : List Char) (hl : ∀ c ∈ l, p c = false) (b : Bool) :
    scrubRunsGo p w b l = l := by
  induction l generalizing b with
  | nil => rfl
  | cons c cs ih =>
      have hc : p c = false := hl c (by simp)
      simp [scrubRunsGo, hc, ih (fun d hd => hl d (by simp [hd]))]

lemma scrubRunsGo_mem (p : Char → Bool) (w : List Char)
    (hw : ∀ c ∈ w, p c = false) (l : List Char) (b : Bool) :
    ∀ c ∈ scrubRunsGo p w b l, p c = false := by
  induction l generalizing b with
  | nil => intro c hc; simp [scrubRunsGo] at hc
  | cons a as ih =>
      intro c hc
      by_cases hpa : p a
      · rw [scrubRunsGo, if_pos hpa] at hc
        rcases List.mem_append.mp hc with h | h
        · cases b with
          | true => simp at h
          | false => exact hw c h
        · exact ih true c h
      · rw [scrubRunsGo, if_neg hpa] at hc
        rcases List.mem_cons.mp hc with h | h
        · rw [h]; exact Bool.of_not_eq_true hpa
        · exact ih false c h

/-- C1 counterexample (claim as stated is false): with a scrubber that
rewrites `"X"` to `"SCRUBBED"`, `verify("X", options)` persists
`"SCRUBBED"` to the received path — not the raw contents `"X"`: the
scrubbed bytes, not the raw bytes, are written to the received file. -/
theorem c1_counterexample :
    (Approvals.verifyString "X"
        ⟨fun s => if s = "X" then "SCRUBBED" else s, 0, "txt"⟩
        ⟨none, none⟩).2.received = some "SCRUBBED" ∧
    ¬ (Approvals.verifyString "X"
        ⟨fun s => if s = "X" then "SCRUBBED" else s, 0, "txt"⟩
        ⟨none, none⟩).2.received = some "X" := by
  constructor <;> decide

/-- C1 (amended): `verify(contents, options)` applies the options'
scrubber to the contents before constructing the writer, so the
scrubbed contents are what is persisted to the received path (and the
received file is then deleted on a match), and the byte comparison
against the baseline uses those same scrubbed bytes. -/
theorem c1_scrubbed_persistence (contents : String) (options : Options)
    (fs : FileSystem) :
    ((Approvals.verifyString contents options fs).1 = VerifyResult.pass ↔
      fs.approved.getD "" = options.scrub contents) ∧
    (Approvals.verifyString contents options fs).2.received =
      (if fs.approved.getD "" = options.scrub contents then none
       else some (options.scrub contents)) := by
  unfold Approvals.verifyString FileApprover.verify StringWriter
  by_cases h : fs.approved.getD "" = options.scrub contents <;>
    simp [h]

/-- C2: when the function under test throws an exception derived from
`std::exception`, `verifyExceptionMessage` does not propagate it: it
returns normally and verifies the exception's `what()` message through
the same `verify` pipeline as any other string. -/
theorem c2_exception_message_verified (message : String)
    (options : Options) (fs : FileSystem) :
    Approvals.verifyExceptionMessage (FnOutcome.stdExc message) options fs
      = Except.ok (Approvals.verifyString message options fs) := rfl

/-- C3: a Disposer-guarded scope restores the registry to the value it
held before the scope began, for every body and also when the body
exits via an exception; and for nested scopes the restores follow stack
discipline — the inner scope restores the outer scope's installed value
first, then the outer scope restores the original value. -/
theorem c3_disposer_restores (V : Type) (newValue : V)
    (body : V → V × List V × Bool) (registry : V) (v1 v2 : V)
    (f : V → V) (threw : Bool) :
    (runScope newValue body registry).1 = registry ∧
    runScope v2 (fun r => runScope v1 (fun x => (f x, [], threw)) r)
        registry
      = (registry, [v2, registry], threw) := by
  constructor
  · rcases hb : body newValue with ⟨afterBody, restores, t⟩
    simp [runScope, Disposer.create, Disposer.dispose, hb]
  · rfl

/-- C4: in a reporter chain where exactly the `n`-th reporter claims
`isWorkingInThisEnvironment`, first-match dispatch invokes `report` on
exactly that reporter and on none after it. -/
theorem c4_first_match_dispatch (chain : List Reporter) (n : Nat)
    (hn : n < chain.length)
    (hworks : ∀ i, ∀ h : i < chain.length,
      ((chain.get ⟨i, h⟩).works = true ↔ i = n)) :
    reportFirstMatch chain = [(chain.get ⟨n, hn⟩).id] := by
  induction chain generalizing n with
  | nil => simp at hn
  | cons r rest ih =>
      cases n with
      | zero =>
          have hr : r.works = true := (hworks 0 (by simp)).mpr rfl
          simp [reportFirstMatch, hr]
      | succ m =>
          have hr : ¬ r.works = true := by
            intro h
            have h0 := (hworks 0 (by simp)).mp h
            exact Nat.succ_ne_zero m h0.symm
          have hm : m < rest.length := Nat.lt_of_succ_lt_succ hn
          have hw' : ∀ i, ∀ h : i < rest.length,
              ((rest.get ⟨i, h⟩).works = true ↔ i = m) := by
            intro i h
            have := hworks (i + 1) (Nat.succ_lt_succ h)
            simpa using this
          simpa [reportFirstMatch, hr] using ih m hm hw'

/-- Witness for C4 at a concrete chain of three reporters where only
the middle one is available. -/
theorem c4_first_match_dispatch_witness :
    reportFirstMatch [⟨10, false⟩, ⟨20, true⟩, ⟨30, false⟩] = [20] := by
  have h := c4_first_match_dispatch
      [⟨10, false⟩, ⟨20, true⟩, ⟨30, false⟩] 1 (by decide) (by decide)
  simpa using h

/-- C5: the namer is a function of the test identity and the
directory/extension policy alone, so any two calls with the same
identity and policy produce the same approved path and the same
received path. -/
theorem c5_namer_deterministic (i1 i2 : TestIdentity)
    (d1 d2 e1 e2 : String) (hi : i1 = i2) (hd : d1 = d2)
    (he : e1 = e2) :
    namerPaths i1 d1 e1 = namerPaths i2 d2 e2 := by
  rw [hi, hd, he]

/-- Witness for C5 at a concrete identity and policy, also evaluating
the two produced paths. -/
theorem c5_namer_deterministic_witness :
    namerPaths ⟨"Suite", "Case", ""⟩ "dir" "txt"
        = namerPaths ⟨"Suite", "Case", ""⟩ "dir" "txt" ∧
    namerPaths ⟨"Suite", "Case", ""⟩ "dir" "txt"
        = ("dir/Suite.Case.approved.txt", "dir/Suite.Case.received.txt") :=
  ⟨c5_namer_deterministic ⟨"Suite", "Case", ""⟩ ⟨"Suite", "Case", ""⟩
      "dir" "dir" "txt" "txt" rfl rfl rfl, by decide⟩

/-- C6: every placeholder-substitution scrubber whose placeholder
contains no character of the scrubbed class is idempotent —
`scrub(scrub(x)) = scrub(x)` — and in particular the numeric-sequence
scrubber is idempotent on every string. -/
theorem c6_scrubber_idempotent (p : Char → Bool) (w : List Char)
    (hw : ∀ c ∈ w, p c = false) :
    (∀ x : List Char, scrubRuns p w (scrubRuns p w x) = scrubRuns p w x) ∧
    (∀ s : String, scrubAllNumbers (scrubAllNumbers s) = scrubAllNumbers s) := by
  constructor
  · intro x
    exact scrubRunsGo_no_match p w _ (scrubRunsGo_mem p w hw x false) false
  · intro s
    have h : ∀ c ∈ "<NUM>".data, Char.isDigit c = false := by decide
    exact congrArg String.mk
      (scrubRunsGo_no_match _ _ _ (scrubRunsGo_mem _ _ h s.data false) false)

/-- Witness for C6: the numeric-sequence scrubber with its non-digit
placeholder, applied twice to a concrete string. -/
theorem c6_scrubber_idempotent_witness :
    scrubRuns Char.isDigit "<NUM>".data
        (scrubRuns Char.isDigit "<NUM>".data "abc123def45".data)
      = scrubRuns Char.isDigit "<NUM>".data "abc123def45".data ∧
    scrubAllNumbers (scrubAllNumbers "ts 2023-01-01") = scrubAllNumbers "ts 2023-01-01" := by
  have h := c6_scrubber_idempotent Char.isDigit "<NUM>".data (by decide)
  exact ⟨h.1 "abc123def45".data, h.2 "ts 2023-01-01"⟩

/-- C7: when the approved baseline exists and equals the scrubbed
received contents, verification passes and the received file is
removed. -/
theorem c7_pass_removes_received (contents : String) (options : Options)
    (baseline : String) (r0 : Option String)
    (hb : baseline = options.scrub contents) :
    (Approvals.verifyString contents options ⟨some baseline, r0⟩).1
        = VerifyResult.pass ∧
    (Approvals.verifyString contents options ⟨some baseline, r0⟩).2.received
        = none := by
  subst hb
  simp [Approvals.verifyString, FileApprover.verify, StringWriter]

/-- Witness for C7: the spec's scenario — baseline `"A\nB\n"`, received
contents `"A\nB\n"` under the identity scrubber. -/
theorem c7_pass_removes_received_witness :
    (Approvals.verifyString "A\nB\n" ⟨id, 0, "txt"⟩
        ⟨some "A\nB\n", none⟩).1 = VerifyResult.pass ∧
    (Approvals.verifyString "A\nB\n" ⟨id, 0, "txt"⟩
        ⟨some "A\nB\n", none⟩).2.received = none :=
  c7_pass_removes_received "A\nB\n" ⟨id, 0, "txt"⟩ "A\nB\n" none rfl

/-- C8: the `ApprovalWriter` overload of `verify` never applies the
options' scrubber: its outcome is unchanged by replacing the scrubber,
the writer's contents are compared unscrubbed, the persisted received
contents are the writer's raw contents — while the string overload
does route its contents through the scrubber. -/
theorem c8_writer_overload_ignores_scrubber (w : ApprovalWriter)
    (options : Options) (alt : String → String) (fs : FileSystem) :
    Approvals.verifyWriter w options fs
        = Approvals.verifyWriter w { options with scrubber := alt } fs ∧
    ((Approvals.verifyWriter w options fs).1 = VerifyResult.pass ↔
      fs.approved.getD "" = w.contents) ∧
    (Approvals.verifyWriter w options fs).2.received =
      (if fs.approved.getD "" = w.contents then none
       else some w.contents) ∧
    (∀ contents : String, Approvals.verifyString contents options fs =
      Approvals.verifyWriter
        (StringWriter (options.scrub contents) options.fileExtension)
        options fs) := by
  refine ⟨rfl, ?_, ?_, fun _ => rfl⟩ <;>
    · unfold Approvals.verifyWriter FileApprover.verify
      by_cases h : fs.approved.getD "" = w.contents <;> simp [h]

/-- C9: when the function under test throws nothing,
`verifyExceptionMessage` verifies exactly the placeholder
`"*** no exception thrown ***"`; when it throws something not derived
from `std::exception`, the exception propagates uncaught and nothing is
verified. -/
theorem c9_no_exception_placeholder (options : Options)
    (fs : FileSystem) :
    Approvals.verifyExceptionMessage FnOutcome.ok options fs
      = Except.ok
          (Approvals.verifyString "*** no exception thrown ***" options fs) ∧
    Approvals.verifyExceptionMessage FnOutcome.otherExc options fs
      = Except.error () :=
  ⟨rfl, rfl⟩

/-- C10: the string `verifyAll(header, list, options)` verifies is the
header followed by exactly three newlines when the header is non-empty
(nothing when it is empty), then each element as `"[i] = "` followed by
its `toString` and one newline, `i` counting from 0 in list order; and
the header-less overload equals the header overload with an empty
header. -/
theorem c10_verifyAll_format (header : String) (xs : List α)
    (toStr : α → String) :
    Approvals.verifyAllString header xs toStr
        = verifyAllClaimString header xs toStr ∧
    Approvals.verifyAllNoHeaderString xs toStr
        = Approvals.verifyAllString "" xs toStr := by
  refine ⟨?_, rfl⟩
  unfold Approvals.verifyAllString verifyAllClaimString verifyAllStream
  rw [verifyAllIndexedPieces_enumFrom, List.map_map, List.enum]
  rfl

end ApprovalTests
